import Mathlib

/-!
Verification of the interpolation and generation core of `dye-your-shell`.

The Lean definitions below are a shallow embedding of the Python sources:

* `src/dye/theme.py` (`Theme._process`, color table resolution),
* `src/dye/scope.py` (`Scope.run_agent`, `Scope._enabled`),
* `src/dye/pattern.py` (`Pattern.is_enabled`),
* `src/dye/dye.py` (`Dye.dispatch` error reporting),
* `src/shell_themer/interpolator.py` (`Interpolator`),
* `src/shell_themer/parsers.py` (`StyleParser`),
* `src/shell_themer/generators.py` (`LsColors`).

Python dictionaries are modelled as ordered association lists, exceptions as
an `Except` error monad, and child-process execution as an oracle function
from command text to exit status.  The `rich` style library and the Jinja
template engine are external capabilities of the program; they are modelled
here only on the fragment the program relies on (documented at each
definition).
-/

set_option maxRecDepth 8192

namespace Dye

/-- Python exception kinds that can escape the embedded code.  `theme`, `dye`
and `dyeSynErr` carry the user-facing message of the corresponding
`ThemeError` / `DyeError` / `DyeSyntaxError`. -/
inductive Err where
  | attr : Err
  | typeErr : Err
  | recursion : Err
  | tmplSynErr : Err
  | styleSynErr : Err
  | theme (msg : String) : Err
  | dye (msg : String) : Err
  | dyeSynErr (msg : String) : Err
deriving DecidableEq, Repr

/-- A TOML value as produced by `tomlkit`: strings, booleans, integers,
tables (insertion-ordered) and arrays.  Floats and dates are not used by any
claim and are omitted. -/
inductive Toml where
  | str (s : String) : Toml
  | bool (b : Bool) : Toml
  | int (n : Int) : Toml
  | table (kvs : List (String × Toml)) : Toml
  | arr (xs : List Toml) : Toml
deriving Repr

/-- A single-quote character, used when rebuilding diagnostic messages. -/
def sq : String := (Char.ofNat 39).toString

/-- Python truthiness of a TOML value (`if not value` tests). -/
def pyFalsy : Toml → Bool
  | .str s => s == ""
  | .bool b => !b
  | .int n => n == 0
  | .table kvs => kvs.isEmpty
  | .arr xs => xs.isEmpty

/-- Python `str()` of a TOML value, as used in f-string diagnostics and in
variable substitution.  The repr of containers is not modelled (no claim
formats a container). -/
def pyStr : Toml → String
  | .str s => s
  | .bool b => if b then "True" else "False"
  | .int n => toString n
  | .table _ => "<table>"
  | .arr _ => "<array>"

/-- Python `dict` insertion with `d[k] = v` semantics on an ordered
association list: an existing key keeps its position, a new key is appended. -/
def dictSet (acc : List (String × Toml)) (k : String) (v : Toml) :
    List (String × Toml) :=
  match acc with
  | [] => [(k, v)]
  | (k', v') :: rest =>
      if k' = k then (k', v) :: rest else (k', v') :: dictSet rest k v

/-! ## The `rich` color and style capability

`rich.color.Color` / `rich.style.Style` are external libraries; the program
uses them through `Color.parse`, `Style.parse`, truthiness, `Style.render`
(for its SGR parameter list) and `color.triplet.hex`.  The model below covers
the fragment exercised by the program: named ANSI colors (a representative
subset of rich's name table, with rich's exact numbers), `default`, 6-digit
hex colors, and the attribute words the program's styles use. -/

inductive RichColorType where
  | default : RichColorType
  | standard : RichColorType
  | eightBit : RichColorType
  | truecolor : RichColorType
deriving DecidableEq, Repr

structure RichColor where
  ctype : RichColorType
  number : Option Nat := none
  triplet : Option (Nat × Nat × Nat) := none
deriving DecidableEq, Repr

structure RichStyle where
  color : Option RichColor := none
  bgcolor : Option RichColor := none
  bold : Option Bool := none
  dim : Option Bool := none
  italic : Option Bool := none
  underline : Option Bool := none
  reverse : Option Bool := none
  strike : Option Bool := none
deriving DecidableEq, Repr

/-- Subset of rich's `ANSI_COLOR_NAMES`, with rich's numbering: numbers 0-15
are `STANDARD` colors, 16-255 are `EIGHT_BIT`. -/
def ansiColorNames : List (String × Nat) :=
  [("black", 0), ("red", 1), ("green", 2), ("yellow", 3), ("blue", 4),
   ("magenta", 5), ("cyan", 6), ("white", 7), ("bright_black", 8),
   ("bright_red", 9), ("bright_green", 10), ("bright_yellow", 11),
   ("bright_blue", 12), ("bright_magenta", 13), ("bright_cyan", 14),
   ("bright_white", 15), ("navy_blue", 17), ("grey82", 252)]

def parseHexDigit (c : Char) : Option Nat :=
  if '0' ≤ c ∧ c ≤ '9' then some (c.toNat - 48)
  else if 'a' ≤ c ∧ c ≤ 'f' then some (c.toNat - 87)
  else none

/-- `rich.color.Color.parse` on the fragment the program uses: `default`,
named ANSI colors, and `#rrggbb` hex triplets.  `none` models
`rich.errors.ColorParseError`. -/
def colorParse (w : String) : Option RichColor :=
  if w = "default" then some { ctype := .default }
  else
    match List.lookup w ansiColorNames with
    | some n =>
        some { ctype := if n < 16 then .standard else .eightBit, number := some n }
    | none =>
        match w.toList with
        | ['#', a, b, c, d, e, f] =>
            match parseHexDigit a, parseHexDigit b, parseHexDigit c,
                  parseHexDigit d, parseHexDigit e, parseHexDigit f with
            | some ha, some hb, some hc, some hd, some he, some hf =>
                some { ctype := .truecolor,
                       triplet := some (16 * ha + hb, 16 * hc + hd, 16 * he + hf) }
            | _, _, _, _, _, _ => none
        | _ => none

/-- Set one style attribute by its rich keyword (long or one-letter form). -/
def styleAttrSet (w : String) (v : Bool) (st : RichStyle) : Option RichStyle :=
  if w = "bold" ∨ w = "b" then some { st with bold := some v }
  else if w = "dim" ∨ w = "d" then some { st with dim := some v }
  else if w = "italic" ∨ w = "i" then some { st with italic := some v }
  else if w = "underline" ∨ w = "u" then some { st with underline := some v }
  else if w = "reverse" ∨ w = "r" then some { st with reverse := some v }
  else if w = "strike" ∨ w = "s" then some { st with strike := some v }
  else none

/-- Word loop of `rich.style.Style.parse`: attribute words set flags, `on`
routes the next color word to the background, `not` negates the next
attribute word, any other word must parse as a color and becomes the
foreground.  `none` models `rich.errors.StyleSyntaxError`. -/
def styleParseWords : List String → RichStyle → Option RichStyle
  | [], st => some st
  | "on" :: rest, st =>
      match rest with
      | [] => none
      | w :: ws =>
          match colorParse w with
          | some c => styleParseWords ws { st with bgcolor := some c }
          | none => none
  | "not" :: rest, st =>
      match rest with
      | [] => none
      | w :: ws =>
          match styleAttrSet w false st with
          | some st2 => styleParseWords ws st2
          | none => none
  | w :: ws, st =>
      match styleAttrSet w true st with
      | some st2 => styleParseWords ws st2
      | none =>
          match colorParse w with
          | some c => styleParseWords ws { st with color := some c }
          | none => none

/-- Split on runs of whitespace, as Python's `str.split()` does. -/
def splitWordsAux : List Char → List Char → List String
  | [], [] => []
  | [], cur => [cur.reverse.asString]
  | c :: cs, cur =>
      if c = ' ' ∨ c = '\t' ∨ c = '\n' then
        match cur with
        | [] => splitWordsAux cs []
        | _ => cur.reverse.asString :: splitWordsAux cs []
      else splitWordsAux cs (c :: cur)

def splitWords (s : String) : List String := splitWordsAux s.toList []

/-- `rich.style.Style.parse`.  An empty definition yields the null style. -/
def styleParse (text : String) : Option RichStyle :=
  styleParseWords (splitWords text) {}

/-- Truthiness of a `rich.style.Style`: the null style is falsy, any set
color or attribute makes it truthy. -/
def styleTruthy (s : RichStyle) : Bool :=
  s.color.isSome || s.bgcolor.isSome || s.bold.isSome || s.dim.isSome ||
  s.italic.isSome || s.underline.isSome || s.reverse.isSome || s.strike.isSome

def hexDigitChar (n : Nat) : Char :=
  if n < 10 then Char.ofNat (48 + n) else Char.ofNat (87 + n)

/-- Two lowercase hex digits of a byte, as in rich's `ColorTriplet.hex`. -/
def hexByte (n : Nat) : String :=
  String.mk [hexDigitChar (n / 16), hexDigitChar (n % 16)]

/-- `color.triplet.hex` for a truecolor triplet: `#rrggbb`. -/
def tripletHex (t : Nat × Nat × Nat) : String :=
  "#" ++ hexByte t.1 ++ hexByte t.2.1 ++ hexByte t.2.2

/-- Foreground SGR parameters of a color, as rich emits them. -/
def colorFgCodes (c : RichColor) : List String :=
  match c.ctype, c.number, c.triplet with
  | .default, _, _ => ["39"]
  | .standard, some n, _ =>
      [toString (if n < 8 then 30 + n else 82 + n)]
  | .standard, none, _ => []
  | .eightBit, some n, _ => ["38", "5", toString n]
  | .eightBit, none, _ => []
  | .truecolor, _, some (r, g, b) =>
      ["38", "2", toString r, toString g, toString b]
  | .truecolor, _, none => []

/-- Background SGR parameters of a color, as rich emits them. -/
def colorBgCodes (c : RichColor) : List String :=
  match c.ctype, c.number, c.triplet with
  | .default, _, _ => ["49"]
  | .standard, some n, _ =>
      [toString (if n < 8 then 40 + n else 92 + n)]
  | .standard, none, _ => []
  | .eightBit, some n, _ => ["48", "5", toString n]
  | .eightBit, none, _ => []
  | .truecolor, _, some (r, g, b) =>
      ["48", "2", toString r, toString g, toString b]
  | .truecolor, _, none => []

def attrCode (o : Option Bool) (onCode offCode : String) : List String :=
  match o with
  | some true => [onCode]
  | some false => [offCode]
  | none => []

/-- The semicolon-separated SGR parameter list a style renders with, i.e.
the `attrs` in rich's `\x1b[{attrs}m` escape (attribute codes in rich's
fixed order, then foreground, then background). -/
def ansiParamString (s : RichStyle) : String :=
  String.intercalate ";"
    (attrCode s.bold "1" "21" ++ attrCode s.dim "2" "22" ++
     attrCode s.italic "3" "23" ++ attrCode s.underline "4" "24" ++
     attrCode s.reverse "7" "27" ++ attrCode s.strike "9" "29" ++
     (match s.color with | some c => colorFgCodes c | none => []) ++
     (match s.bgcolor with | some c => colorBgCodes c | none => []))

/-! ## The Interpolator (`src/shell_themer/interpolator.py`)

`Interpolator.interpolate_variables` and `interpolate_styles` are `re.sub`
over the patterns

  `(\\)?(\{(var|variable):([^}:]*)(?::(.*))?\})`
  `(\\)?(\{style:([^}:]*)(?::(.*))?\})`

The scanners below reproduce the leftmost-match scan of `re.sub` directly:
at each position the optional backslash, the keyword, the name (`[^}:]*`,
maximal), and the optional `:` + greedy format (everything up to the last
`}` before the end of the line, since `.` excludes newlines) are tried; on
failure the scan advances one character.  Python dictionaries of styles and
variables are ordered association lists. -/

/-- Variable table: variable name to TOML value. -/
abbrev VarTbl := List (String × Toml)

/-- Style table: style name to parsed `rich.style.Style`. -/
abbrev StyleTbl := List (String × RichStyle)

/-- Strip an expected prefix from a character list (`none` on mismatch). -/
def dropPre : List Char → List Char → Option (List Char)
  | [], cs => some cs
  | _ :: _, [] => none
  | p :: ps, c :: cs => if p = c then dropPre ps cs else none

/-- Characters allowed in a token name by the `[^}:]*` group. -/
def tokNameChar (c : Char) : Bool := !(c == ':' || c == '}')

/-- The data of one regex match: the name group, the optional format group,
the full token text (match group 2, braces included) and the unconsumed
remainder of the input. -/
structure TokMatch where
  name : String
  fmt : Option String
  phrase : String
  rest : List Char

/-- Split a line at its last `}` (the greedy `(.*)\}` backtracks to the last
closing brace before the end of the line); returns the part before it. -/
def findLastBrace (line : List Char) : Option (List Char) :=
  match line.reverse.dropWhile (fun c => c != '}') with
  | [] => none
  | _ :: revPre => some revPre.reverse

/-- Match the name and optional format groups, given the text right after
`\{kw:` has been consumed. -/
def matchAfterKw (kw : String) (afterColon : List Char) : Option TokMatch :=
  let name := (afterColon.takeWhile tokNameChar).asString
  match afterColon.dropWhile tokNameChar with
  | '}' :: rest =>
      some ⟨name, none, "\x7b" ++ kw ++ ":" ++ name ++ "\x7d", rest⟩
  | ':' :: rest =>
      let line := rest.takeWhile (fun c => c != '\n')
      match findLastBrace line with
      | none => none
      | some fmt =>
          some ⟨name, some fmt.asString,
                "\x7b" ++ kw ++ ":" ++ name ++ ":" ++ fmt.asString ++ "\x7d",
                rest.drop (fmt.length + 1)⟩
  | _ => none

/-- Try to match one keyword alternative (`\{kw:...`) at this position.  The
alternatives of `(var|variable)` are mutually exclusive here because the
character after `var` differs, so trying them in order is the regex's
backtracking behavior. -/
def matchTok : List String → List Char → Option TokMatch
  | [], _ => none
  | kw :: kws, cs =>
      match dropPre ("\x7b" ++ kw ++ ":").toList cs with
      | some after => matchAfterKw kw after
      | none => matchTok kws cs

/-- The `re.sub` scan shared by both interpolation passes.  `sub` decides the
replacement of a non-escaped match (it may raise); an escaped match replaces
the backslash-plus-token with the bare token text (`_var_subber` /
`_style_subber` backslash branch).  `fuel` bounds the scan and is always
called with more fuel than characters, so the `0` case is unreachable. -/
def scanSub (kws : List String) (sub : TokMatch → Except Err String) :
    Nat → List Char → Except Err (List Char)
  | _, [] => .ok []
  | 0, cs => .ok cs
  | fuel + 1, c :: cs =>
      if c = '\\' then
        match matchTok kws cs with
        | some md =>
            (scanSub kws sub fuel md.rest).map (fun r => md.phrase.toList ++ r)
        | none => (scanSub kws sub fuel cs).map (fun r => '\\' :: r)
      else
        match matchTok kws (c :: cs) with
        | some md =>
            match sub md with
            | .ok repl =>
                (scanSub kws sub fuel md.rest).map (fun r => repl.toList ++ r)
            | .error e => .error e
        | none => (scanSub kws sub fuel cs).map (fun r => c :: r)

/-- `Interpolator._get_style`: exact table lookup first; a missing or falsy
entry falls back to `rich.style.Style.parse` on the name itself.  `none`
covers both a parse failure (`StyleSyntaxError`, caught by the caller) and a
missing entry whose fallback parse fails. -/
def getStyle (styles : StyleTbl) (styledef : String) : Option RichStyle :=
  match List.lookup styledef styles with
  | some s => if styleTruthy s then some s else styleParse styledef
  | none => styleParse styledef

/-- `Interpolator._style_subber` for a non-escaped match.  An unknown or
falsy style passes the token through; formats `(none | "" | hex)` substitute
`style.color.triplet.hex` and `hexnohash` the same without `#` — both raise
`AttributeError` when the foreground color is missing (`color` is `None`) or
is not truecolor (`triplet` is `None`); any other format passes the token
through.  When the interpolator was built with `styles=None`, the lookup
`self.styles[styledef]` raises `TypeError`. -/
def styleSub (styles : Option StyleTbl) (md : TokMatch) : Except Err String :=
  match styles with
  | none => .error .typeErr
  | some tbl =>
      match getStyle tbl md.name with
      | none => .ok md.phrase
      | some s =>
          if !styleTruthy s then .ok md.phrase
          else
            match md.fmt with
            | none => (hexOfStyle s)
            | some "" => (hexOfStyle s)
            | some "hex" => (hexOfStyle s)
            | some "hexnohash" => (hexOfStyle s).map (fun h => h.drop 1)
            | some _ => .ok md.phrase
where
  hexOfStyle (s : RichStyle) : Except Err String :=
    match s.color with
    | none => .error .attr
    | some c =>
        match c.triplet with
        | none => .error .attr
        | some t => .ok (tripletHex t)

/-- `Interpolator.interpolate_styles`. -/
def interpolate_styles (styles : Option StyleTbl) (text : String) :
    Except Err String :=
  (scanSub ["style"] (styleSub styles) (text.toList.length + 1) text.toList).map
    (fun cs => cs.asString)

/-- `Interpolator.value_of`, indexed by the remaining recursion depth `rf`
(Python's stack limit): a defined string value is recursively run through the
full `interpolate`; other values are returned unchanged; an undefined
variable yields `none`.  At depth 0 Python would raise `RecursionError`. -/
def value_of (rf : Nat) (styles : Option StyleTbl) (vars : VarTbl)
    (name : String) : Except Err (Option Toml) :=
  match rf with
  | 0 => .error .recursion
  | rf + 1 =>
      match List.lookup name vars with
      | none => .ok none
      | some (.str s) =>
          match
            (scanSub ["var", "variable"] (varSubVal (value_of rf styles vars))
              (s.toList.length + 1) s.toList).map (fun cs => cs.asString)
          with
          | .ok v =>
              match interpolate_styles styles v with
              | .ok v2 => .ok (some (.str v2))
              | .error e => .error e
          | .error e => .error e
      | some v => .ok (some v)
where
  /-- `Interpolator._var_subber` for a non-escaped match: an undefined
  variable passes the whole token through; booleans render lowercase; other
  values render with `str()`. -/
  varSubVal (valueF : String → Except Err (Option Toml)) (md : TokMatch) :
      Except Err String :=
    match valueF md.name with
    | .ok none => .ok md.phrase
    | .ok (some (.bool b)) => .ok (if b then "true" else "false")
    | .ok (some v) => .ok (pyStr v)
    | .error e => .error e

/-- `Interpolator.interpolate_variables`. -/
def interpolate_variables (rf : Nat) (styles : Option StyleTbl) (vars : VarTbl)
    (text : String) : Except Err String :=
  (scanSub ["var", "variable"] (value_of.varSubVal (value_of rf styles vars))
    (text.toList.length + 1) text.toList).map (fun cs => cs.asString)

/-- `Interpolator.interpolate`: the variable pass, then the style pass. -/
def interpolate (rf : Nat) (styles : Option StyleTbl) (vars : VarTbl)
    (text : String) : Except Err String :=
  (interpolate_variables rf styles vars text).bind (interpolate_styles styles)

/-! ## Color-table resolution (`src/dye/theme.py`, `Theme._process`)

`Theme._process` walks the raw `[colors]` table in declaration order.  A
string value that is already a key of the partially-built table is a
bare-name alias and copies that key's resolved value; otherwise the string is
rendered as a Jinja template with `colors`/`color` bound to the
partially-built table.  Jinja is an external capability; it is modelled on
the fragment the program feeds it: literal text and `{{ expr }}` expressions
whose `expr` is `colors.<name>` / `color.<name>` (an undefined reference
renders as the empty string, Jinja's `Undefined`).  Other Jinja constructs
(`{% %}`, filters, nested attribute paths) do not occur in the claims and
are out of the model.  Keys are modelled flat; `benedict` keypath nesting is
not involved in any claim. -/

/-- Find the first `}}` in a template body; returns the text before it and
the text after it.  `none` means the expression is never closed (Jinja would
raise `TemplateSyntaxError`). -/
def findCloseTmpl : List Char → Option (List Char × List Char)
  | [] => none
  | c :: rest =>
      if c = '}' ∧ rest.head? = some '}' then some ([], rest.tail)
      else (findCloseTmpl rest).map (fun p => (c :: p.1, p.2))

def isSpaceChar (c : Char) : Bool := c = ' ' ∨ c = '\t'

def trimChars (l : List Char) : List Char :=
  ((l.dropWhile isSpaceChar).reverse.dropWhile isSpaceChar).reverse

/-- How Jinja stringifies a substituted value. -/
def jinjaStr : Toml → String
  | .str s => s
  | .bool b => if b then "True" else "False"
  | .int n => toString n
  | .table _ => "<table>"
  | .arr _ => "<array>"

/-- Evaluate one `{{ ... }}` expression against the colors table: a
`colors.<name>` / `color.<name>` reference substitutes the looked-up value;
an unknown name (or an unknown reference root) is Jinja's `Undefined` and
renders as the empty string. -/
def evalTmplExpr (tbl : List (String × Toml)) (inner : List Char) : String :=
  let e := trimChars inner
  match dropPre "colors.".toList e with
  | some key =>
      match List.lookup key.asString tbl with
      | some v => jinjaStr v
      | none => ""
  | none =>
      match dropPre "color.".toList e with
      | some key =>
          match List.lookup key.asString tbl with
          | some v => jinjaStr v
          | none => ""
      | none => ""

/-- Render a template against the partially-built colors table.  `fuel` is
always called with more fuel than characters, so the `0` case is
unreachable. -/
def renderTmplGo (tbl : List (String × Toml)) :
    Nat → List Char → Except Err (List Char)
  | _, [] => .ok []
  | 0, cs => .ok cs
  | fuel + 1, c :: cs =>
      if c = '{' ∧ cs.head? = some '{' then
        match findCloseTmpl cs.tail with
        | none => .error .tmplSynErr
        | some (inner, after) =>
            (renderTmplGo tbl fuel after).map
              (fun r => (evalTmplExpr tbl inner).toList ++ r)
      else
        (renderTmplGo tbl fuel cs).map (fun r => c :: r)

def renderTmpl (tbl : List (String × Toml)) (s : String) : Except Err String :=
  (renderTmplGo tbl (s.toList.length + 1) s.toList).map (fun cs => cs.asString)

/-- Resolution of one raw string color value against the already-processed
prefix of the table (`Theme._process` loop body for string values): a value
that exactly equals an already-resolved key copies that key's value
(bare-name alias); anything else is rendered as a template. -/
def resolveColorValue (acc : List (String × Toml)) (s : String) :
    Except Err Toml :=
  match List.lookup s acc with
  | some w => .ok w
  | none => (renderTmpl acc s).map .str

/-- The `Theme._process` colors loop: keys are processed in declaration
order and inserted into the growing table; non-string values pass through
unchanged. -/
def processColorsAux (acc : List (String × Toml)) :
    List (String × Toml) → Except Err (List (String × Toml))
  | [] => .ok acc
  | (k, v) :: rest =>
      match v with
      | .str s =>
          match resolveColorValue acc s with
          | .ok val => processColorsAux (dictSet acc k val) rest
          | .error e => .error e
      | other => processColorsAux (dictSet acc k other) rest

/-- Process a raw `[colors]` table into the resolved color table. -/
def processColors (raw : List (String × Toml)) :
    Except Err (List (String × Toml)) :=
  processColorsAux [] raw

/-! ## Scope gating and agent dispatch (`src/dye/scope.py`, `src/dye/dye.py`)

A `Scope` holds its name and its (already template-processed) definition
table.  Child processes are an oracle `shell : String → Nat` from command
text to exit status.  The agent registry (`AgentBase.classmap`, built in the
`dye.agents` module, which is not part of the corpus) is a parameter: a map
from agent name to the agent's `run` function, producing the text the agent
would print. -/

structure ScopeS where
  name : String
  definition : List (String × Toml)

/-- An agent registry: name to `run` behavior. -/
abbrev AgentMap := List (String × (ScopeS → String))

/-- `Scope._enabled`: a present boolean `enabled` key is authoritative (a
non-boolean raises `DyeSyntaxError`); otherwise a present, truthy
`enabled_if` command runs in the shell and a nonzero exit status disables
the scope; otherwise the scope is enabled.  A truthy non-string `enabled_if`
would make `subprocess.run` raise `TypeError`. -/
def scopeEnabled (shell : String → Nat) (sc : ScopeS) : Except Err Bool :=
  match List.lookup "enabled" sc.definition with
  | some (.bool b) => .ok b
  | some _ =>
      .error (.dyeSynErr
        ("scope " ++ sq ++ sc.name ++ sq ++ " requires " ++ sq ++ "enabled" ++
         sq ++ " to be true or false"))
  | none =>
      match List.lookup "enabled_if" sc.definition with
      | none => .ok true
      | some v =>
          if pyFalsy v then .ok true
          else
            match v with
            | .str cmd => .ok (shell cmd == 0)
            | _ => .error .typeErr

/-- `Scope.run_agent`: resolve the agent name (a missing key raises
`DyeSyntaxError` naming the scope; an unregistered name raises
`DyeError "<name>: unknown agent"`), then evaluate `_enabled`, and only when
enabled run the agent and print its non-empty output.  The result is the
text printed to stdout, `none` when nothing is printed. -/
def run_agent (agents : AgentMap) (shell : String → Nat) (sc : ScopeS) :
    Except Err (Option String) :=
  match List.lookup "agent" sc.definition with
  | none =>
      .error (.dyeSynErr
        ("scope " ++ sq ++ sc.name ++ sq ++ " does not have an agent."))
  | some aval =>
      match (match aval with
             | .str s => List.lookup s agents
             | _ => none) with
      | none => .error (.dye (pyStr aval ++ ": unknown agent"))
      | some run =>
          match scopeEnabled shell sc with
          | .error e => .error e
          | .ok false => .ok none
          | .ok true =>
              let out := run sc
              .ok (if out == "" then none else some out)

/-- Modelled from the spec: the `dye.agents` module (the `AgentBase`
subclass registry and the agents' `run` methods) is not in the corpus; per
§4.4 the registry maps the mechanically underscored class name —
`EnvironmentVariables` registers as `environment_variables` — to an agent
that emits `unset NAME` for each entry of the `unset` list (a bare string is
one entry) and `export NAME="value"` for each `export` table entry. -/
def envVarsAgentRun (sc : ScopeS) : String :=
  let unsets :=
    match List.lookup "unset" sc.definition with
    | some (.str s) => ["unset " ++ s]
    | some (.arr xs) => xs.map (fun x => "unset " ++ pyStr x)
    | _ => []
  let exports :=
    match List.lookup "export" sc.definition with
    | some (.table kvs) =>
        kvs.map (fun kv => "export " ++ kv.1 ++ "=\"" ++ pyStr kv.2 ++ "\"")
    | _ => []
  String.intercalate "\n" (unsets ++ exports)

/-- Modelled from the spec: the agent registry with the
`environment_variables` agent registered (the real registry also holds the
other agents; only this one is needed by the claims). -/
def dyeAgents : AgentMap := [("environment_variables", envVarsAgentRun)]

/-- The user-facing message of an error, as interpolated into
`f"{prog}: {err}"` by `Dye.dispatch`.  Exceptions other than
`DyeError`/`DyeSyntaxError` are not caught there (Python would die with a
traceback); they are rendered with a distinguishing marker. -/
def errMsg : Err → String
  | .theme m => m
  | .dye m => m
  | .dyeSynErr m => m
  | .attr => "<uncaught AttributeError>"
  | .typeErr => "<uncaught TypeError>"
  | .recursion => "<uncaught RecursionError>"
  | .tmplSynErr => "<uncaught TemplateSyntaxError>"
  | .styleSynErr => "<uncaught StyleSyntaxError>"

/-- `Dye.dispatch` around one `apply` of one scope: on success exit code 0
with the agent's output on stdout; a raised `DyeError`/`DyeSyntaxError` is
caught, printed to stderr as `f"{prog}: {err}"`, and the exit code is
`EXIT_ERROR = 1`.  Result: (exit code, stderr lines, stdout). -/
def dispatch_apply (prog : String) (agents : AgentMap) (shell : String → Nat)
    (sc : ScopeS) : Nat × List String × Option String :=
  match run_agent agents shell sc with
  | .ok out => (0, [], out)
  | .error e => (1, [prog ++ ": " ++ errMsg e], none)

/-! ## `Pattern.is_enabled` (`src/dye/pattern.py`)

Unlike `Scope._enabled`, this generation interpolates variables and styles
into the `enabled_if` command text before running it.  The interpolator here
is the bracket-syntax `Interpolator` defined above; `rf` is the recursion
budget threaded through it. -/

/-- `Pattern.is_enabled` on a scope definition table: a present boolean
`enabled` is authoritative; a non-boolean `enabled` fails `assert_bool`;
otherwise a present, truthy `enabled_if` string is interpolated and run, and
exit status 0 means enabled; otherwise (absent or falsy `enabled_if`) the
scope is enabled. -/
def is_enabled (rf : Nat) (styles : StyleTbl) (vars : VarTbl)
    (shell : String → Nat) (prog scope : String)
    (scopedef : List (String × Toml)) : Except Err Bool :=
  match List.lookup "enabled" scopedef with
  | some (.bool b) => .ok b
  | some _ =>
      .error (.dyeSynErr
        (prog ++ ": scope " ++ sq ++ scope ++ sq ++ " requires " ++ sq ++
         "enabled" ++ sq ++ " to be true or false"))
  | none =>
      match List.lookup "enabled_if" scopedef with
      | none => .ok true
      | some v =>
          if pyFalsy v then .ok true
          else
            match v with
            | .str cmd =>
                (interpolate rf (some styles) vars cmd).map
                  (fun rcmd => shell rcmd == 0)
            | _ => .error .typeErr

/-! ## `StyleParser` (`src/shell_themer/parsers.py`) -/

/-- `StyleParser.parse_text`: interpolate variables into the text (with an
interpolator built with `styles=None`), then, when the parser holds a
non-empty style table, look the resolved text up there; a missing or falsy
result falls back to `rich.style.Style.parse`, whose failure raises
`StyleSyntaxError`. -/
def parse_text (rf : Nat) (styles : Option StyleTbl) (vars : VarTbl)
    (text : String) : Except Err RichStyle :=
  match interpolate_variables rf none vars text with
  | .error e => .error e
  | .ok resolved =>
      let viaLookup : Option RichStyle :=
        match styles with
        | some st =>
            if st.isEmpty then none
            else
              match List.lookup resolved st with
              | some s => if styleTruthy s then some s else none
              | none => none
        | none => none
      match viaLookup with
      | some s => .ok s
      | none =>
          match styleParse resolved with
          | some s => .ok s
          | none => .error .styleSynErr

/-- `StyleParser.parse_dict`: parse every entry, preserving order.  A
non-string definition makes `re.sub` raise `TypeError`. -/
def parse_dict (rf : Nat) (styles : Option StyleTbl) (vars : VarTbl) :
    List (String × Toml) → Except Err StyleTbl
  | [] => .ok []
  | (k, .str sdef) :: rest =>
      match parse_text rf styles vars sdef with
      | .error e => .error e
      | .ok s =>
          match parse_dict rf styles vars rest with
          | .error e => .error e
          | .ok tl => .ok ((k, s) :: tl)
  | (_, _) :: _ => .error .typeErr

/-! ## The `ls_colors` generator (`src/shell_themer/generators.py`) -/

/-- `LsColors.LS_COLORS_BASE_MAP`, in source declaration order. -/
def LS_COLORS_BASE_MAP : List (String × String) :=
  [("text", "no"), ("file", "fi"), ("directory", "di"), ("symlink", "ln"),
   ("multi_hard_link", "mh"), ("pipe", "pi"), ("socket", "so"),
   ("door", "do"), ("block_device", "bd"), ("character_device", "cd"),
   ("broken_symlink", "or"), ("missing_symlink_target", "mi"),
   ("setuid", "su"), ("setgid", "sg"), ("sticky", "st"),
   ("other_writable", "ow"), ("sticky_other_writable", "tw"),
   ("executable_file", "ex"), ("file_with_capability", "ca")]

/-- Lookup in `LS_COLORS_MAP`, which maps both the friendly name and the
native two-letter code to the native code. -/
def lsMapLookup (n : String) : Option String :=
  match List.lookup n LS_COLORS_BASE_MAP with
  | some a => some a
  | none =>
      if LS_COLORS_BASE_MAP.any (fun p => p.2 == n) then some n else none

/-- `LsColorsFromStyle.ls_colors_from_style` with the `LS_COLORS_MAP`: a
falsy style yields empty strings; an unmapped name (with `allow_unknown`
false) raises `ThemeError` naming the style and the scope; a style whose
foreground color is of `DEFAULT` type renders as code `0`; any other style
renders through `Style.render` and the SGR parameters are peeled out of the
escape sequence.  A style with no foreground color crashes on
`style.color.type` (`AttributeError`). -/
def ls_colors_from_style (prog scope : String) (name : String)
    (style : RichStyle) (allowUnknown : Bool) : Except Err (String × String) :=
  if !styleTruthy style then .ok ("", "")
  else
    match (match lsMapLookup name with
           | some m => some m
           | none => if allowUnknown then some name else none) with
    | none =>
        .error (.theme
          (prog ++ ": unknown style " ++ sq ++ name ++ sq ++
           " while processing scope " ++ sq ++ scope ++ sq))
    | some mapname =>
        match style.color with
        | none => .error .attr
        | some c =>
            if c.ctype = .default then .ok (mapname, mapname ++ "=0")
            else .ok (mapname, mapname ++ "=" ++ ansiParamString style)

/-- First loop of `LsColors.generate`: the styles declared in the scope, in
order, each truthy one contributing its code and rendered entry. -/
def lsStylesLoop (prog scope : String) :
    List (String × RichStyle) → Except Err (List String × List String)
  | [] => .ok ([], [])
  | (name, st) :: rest =>
      if styleTruthy st then
        match ls_colors_from_style prog scope name st false with
        | .error e => .error e
        | .ok (code, render) =>
            match lsStylesLoop prog scope rest with
            | .error e => .error e
            | .ok (hs, os) => .ok (code :: hs, render :: os)
      else lsStylesLoop prog scope rest

/-- Second loop of `LsColors.generate` (`clear_builtin`): every base-map
code not already supplied is rendered with the literal `default` style. -/
def lsClearLoop (prog scope : String) (dstyle : RichStyle)
    (hcodes : List String) :
    List (String × String) → Except Err (List String)
  | [] => .ok []
  | (name, code) :: rest =>
      if hcodes.contains code then lsClearLoop prog scope dstyle hcodes rest
      else
        match ls_colors_from_style prog scope name dstyle false with
        | .error e => .error e
        | .ok (_, render) =>
            match lsClearLoop prog scope dstyle hcodes rest with
            | .error e => .error e
            | .ok os => .ok (render :: os)

/-- `LsColors.generate`: parse the scope's `style` table (absent or
non-table means no styles), read `clear_builtin` (must be boolean, default
false), render the declared styles, optionally fill in the remaining builtin
codes with the `default` style, resolve the target variable name (default
`LS_COLORS`) and emit the single export line — even when the list is
empty. -/
def lsColorsGenerate (rf : Nat) (prog scope : String)
    (scopedef : List (String × Toml)) (styles : StyleTbl) (vars : VarTbl) :
    Except Err String := do
  let rawStyles :=
    match List.lookup "style" scopedef with
    | some (.table st) => st
    | _ => []
  let scopeStyles ← parse_dict rf (some styles) vars rawStyles
  let clearBuiltin ←
    match List.lookup "clear_builtin" scopedef with
    | none => Except.ok false
    | some (.bool b) => Except.ok b
    | some _ =>
        Except.error (.theme
          (prog ++ ": ls_colors generator for scope " ++ sq ++ scope ++ sq ++
           " requires " ++ sq ++ "clear_builtin" ++ sq ++
           " to be true or false"))
  let (hcodes, outlist) ← lsStylesLoop prog scope scopeStyles
  let outlist2 ←
    if clearBuiltin then do
      let dstyle ← parse_text rf none [] "default"
      lsClearLoop prog scope dstyle hcodes LS_COLORS_BASE_MAP
    else pure []
  let varname ←
    match List.lookup "environment_variable" scopedef with
    | some (.str v) => interpolate rf (some styles) vars v
    | some _ => Except.error .typeErr
    | none => Except.ok "LS_COLORS"
  pure ("export " ++ varname ++ "=\"" ++
        String.intercalate ":" (outlist ++ outlist2) ++ "\"")

/-! ## Helper lemmas -/

theorem toList_append (a b : String) : (a ++ b).toList = a.toList ++ b.toList := by
  cases a; cases b; rfl

theorem asString_toList (s : String) : s.toList.asString = s := by
  cases s; rfl

theorem asString_data (s : String) : s.data.asString = s := by
  cases s; rfl

theorem string_ext {a b : String} (h : a.toList = b.toList) : a = b := by
  cases a; cases b; exact congrArg String.mk h

theorem dropPre_append (p r : List Char) : dropPre p (p ++ r) = some r := by
  induction p with
  | nil => rfl
  | cons c cs ih => simp [dropPre, ih]

theorem dropPre_eq_append {p cs r : List Char} (h : dropPre p cs = some r) :
    cs = p ++ r := by
  induction p generalizing cs with
  | nil =>
      simp only [dropPre, Option.some.injEq] at h
      simpa using h
  | cons x xs ih =>
      cases cs with
      | nil => simp [dropPre] at h
      | cons c cs' =>
          by_cases hx : x = c
          · subst hx
            simp only [dropPre, if_pos rfl] at h
            simpa using ih h
          · simp [dropPre, hx] at h

theorem takeWhile_append_all {p : Char → Bool} {l l2 : List Char}
    (h : ∀ c ∈ l, p c = true) :
    (l ++ l2).takeWhile p = l ++ l2.takeWhile p := by
  induction l with
  | nil => rfl
  | cons c cs ih =>
      have hc : p c = true := h c (by simp)
      simp [List.takeWhile, hc, ih (fun d hd => h d (by simp [hd]))]

theorem dropWhile_append_all {p : Char → Bool} {l l2 : List Char}
    (h : ∀ c ∈ l, p c = true) :
    (l ++ l2).dropWhile p = l2.dropWhile p := by
  induction l with
  | nil => rfl
  | cons c cs ih =>
      have hc : p c = true := h c (by simp)
      simp [List.dropWhile, hc, ih (fun d hd => h d (by simp [hd]))]

theorem dropWhile_all_false {p : Char → Bool} {l : List Char}
    (h : ∀ c ∈ l, p c = false) : l.dropWhile p = l := by
  cases l with
  | nil => rfl
  | cons c cs => simp [List.dropWhile, h c (by simp)]

/-! ## Lemmas about the token matcher and the scanners -/

/-- A character satisfying the name class is neither `:` nor `}`. -/
theorem tokNameChar_of_not_mem {x : String} (hc : ':' ∉ x.toList)
    (hb : '}' ∉ x.toList) : ∀ c ∈ x.toList, tokNameChar c = true := by
  intro c hmem
  have h1 : c ≠ ':' := fun h => hc (h ▸ hmem)
  have h2 : c ≠ '}' := fun h => hb (h ▸ hmem)
  simp [tokNameChar, h1, h2]

/-- Matching a name made of name-class characters, closed directly by `}`:
the name group is maximal and the format group is absent. -/
theorem matchAfterKw_no_fmt (kw x : String) (rest : List Char)
    (hx : ∀ c ∈ x.toList, tokNameChar c = true) :
    matchAfterKw kw (x.toList ++ '}' :: rest) =
      some ⟨x, none, "\x7b" ++ kw ++ ":" ++ x ++ "\x7d", rest⟩ := by
  have ht : (x.toList ++ '}' :: rest).takeWhile tokNameChar = x.toList := by
    rw [takeWhile_append_all hx]
    simp [List.takeWhile_cons, tokNameChar]
  have hd : (x.toList ++ '}' :: rest).dropWhile tokNameChar = '}' :: rest := by
    rw [dropWhile_append_all hx]
    simp [List.dropWhile_cons, tokNameChar]
  simp only [String.toList] at ht hd
  simp [matchAfterKw, ht, hd, asString_data]

/-- Matching a name followed by `:` and a newline-free, brace-free format
text whose closing `}` ends the input: the format group takes everything up
to that last brace and the match consumes the whole input. -/
theorem matchAfterKw_fmt (kw x f : String)
    (hx : ∀ c ∈ x.toList, tokNameChar c = true)
    (hn : '\n' ∉ f.toList) :
    matchAfterKw kw (x.toList ++ ':' :: (f.toList ++ ['}'])) =
      some ⟨x, some f, "\x7b" ++ kw ++ ":" ++ x ++ ":" ++ f ++ "\x7d", []⟩ := by
  have ht : (x.toList ++ ':' :: (f.toList ++ ['}'])).takeWhile tokNameChar =
      x.toList := by
    rw [takeWhile_append_all hx]
    simp [List.takeWhile_cons, tokNameChar]
  have hd : (x.toList ++ ':' :: (f.toList ++ ['}'])).dropWhile tokNameChar =
      ':' :: (f.toList ++ ['}']) := by
    rw [dropWhile_append_all hx]
    simp [List.dropWhile_cons, tokNameChar]
  have hline : (f.toList ++ ['}']).takeWhile (fun c => c != '\n') =
      f.toList ++ ['}'] := by
    rw [takeWhile_append_all (fun c hmem => by
      have : c ≠ '\n' := fun h => hn (h ▸ hmem)
      simp [this])]
    simp
  have hfind : findLastBrace (f.toList ++ ['}']) = some f.toList := by
    have hrev : (f.toList ++ ['}']).reverse = '}' :: f.toList.reverse := by
      simp
    have hdw : ('}' :: f.toList.reverse).dropWhile (fun c => c != '}') =
        '}' :: f.toList.reverse := by
      simp [List.dropWhile_cons]
    simp [findLastBrace, hrev, hdw]
  have hdrop : (f.toList ++ ['}']).drop (f.toList.length + 1) = [] := by
    have : (f.toList ++ ['}']).length = f.toList.length + 1 := by simp
    rw [← this, List.drop_length]
  simp only [String.toList] at ht hd hline hfind hdrop
  simp [matchAfterKw, ht, hd, hline, hfind, asString_data, hdrop]

/-- The `(var|variable)` alternation on text starting with `{var:`. -/
theorem matchTok_var (after : List Char) :
    matchTok ["var", "variable"] ("\x7bvar:".toList ++ after) =
      matchAfterKw "var" after := by
  have h : ("\x7b" ++ "var" ++ ":").toList = "\x7bvar:".toList := rfl
  simp only [matchTok, h, dropPre_append]

/-- The `style` keyword on text starting with `{style:`. -/
theorem matchTok_style (after : List Char) :
    matchTok ["style"] ("\x7bstyle:".toList ++ after) =
      matchAfterKw "style" after := by
  have h : ("\x7b" ++ "style" ++ ":").toList = "\x7bstyle:".toList := rfl
  simp only [matchTok, h, dropPre_append]

/-- A style token cannot match where `{style:` is not a prefix. -/
theorem matchTok_style_none {cs : List Char}
    (h : ¬ ("\x7bstyle:".toList <+: cs)) : matchTok ["style"] cs = none := by
  have hlit : ("\x7b" ++ "style" ++ ":").toList = "\x7bstyle:".toList := rfl
  simp only [matchTok, hlit]
  cases hd : dropPre "\x7bstyle:".toList cs with
  | none => rfl
  | some r => exact absurd ⟨r, (dropPre_eq_append hd).symm⟩ h

/-- The style scan is the identity on any text that does not contain the
substring `{style:` (for every substitution function — the subber is never
consulted). -/
theorem scanSub_style_id (sub : TokMatch → Except Err String) :
    ∀ (fuel : Nat) (cs : List Char), cs.length ≤ fuel →
    ¬ ("\x7bstyle:".toList <:+: cs) →
    scanSub ["style"] sub fuel cs = .ok cs := by
  intro fuel
  induction fuel with
  | zero =>
      intro cs h1 _
      cases cs with
      | nil => rfl
      | cons c rest => simp at h1
  | succ fuel ih =>
      intro cs h1 h2
      cases cs with
      | nil => rfl
      | cons c rest =>
          have hpre_cs : ¬ ("\x7bstyle:".toList <+: (c :: rest)) :=
            fun hp => h2 hp.isInfix
          have hpre_rest : ¬ ("\x7bstyle:".toList <+: rest) := fun hp => by
            obtain ⟨t, ht⟩ := hp
            exact h2 ⟨[c], t, congrArg (c :: ·) ht⟩
          have hinf_rest : ¬ ("\x7bstyle:".toList <:+: rest) :=
            fun hi => h2 (List.infix_cons hi)
          have hlen : rest.length ≤ fuel := by simpa using h1
          by_cases hc : c = '\\'
          · subst hc
            simp [scanSub, matchTok_style_none hpre_rest,
                  ih rest hlen hinf_rest, Except.map]
          · simp [scanSub, hc, matchTok_style_none hpre_cs,
                  ih rest hlen hinf_rest, Except.map]

/-- The text `{var:` ++ x ++ `}` contains no `{style:` substring when `x`
contains no colon: the only colon sits at index 4, too close to the start. -/
theorem no_style_in_var_token (x : String) (hc : ':' ∉ x.toList) :
    ¬ ("\x7bstyle:".toList <:+: ("\x7bvar:".toList ++ (x.toList ++ ['}']))) := by
  rintro ⟨s, t, h⟩
  have hL : (s ++ ("\x7bstyle:".toList ++ t))[s.length + 6]? = some ':' := by
    rw [List.getElem?_append_right (by omega)]
    have h6 : s.length + 6 - s.length = 6 := by omega
    rw [h6, List.getElem?_append]
    simp
  rw [List.append_assoc] at h
  rw [h] at hL
  have h5 : ("\x7bvar:".toList).length = 5 := rfl
  have hR : ("\x7bvar:".toList ++ (x.toList ++ ['}']))[s.length + 6]? =
      (x.toList ++ ['}'])[s.length + 1]? := by
    rw [List.getElem?_append_right (by rw [h5]; omega), h5]
    congr 1
  rw [hR] at hL
  have hmem : (':' : Char) ∈ x.toList ++ ['}'] := List.getElem?_mem hL
  rcases List.mem_append.mp hmem with hm | hm
  · exact hc hm
  · simp at hm

/-- One scan step at a position where a token matches without a backslash
and the subber raises: the scan raises. -/
theorem scanSub_step_err (kws : List String)
    (sub : TokMatch → Except Err String) (fuel : Nat) (c : Char)
    (cs : List Char) (md : TokMatch) (e : Err) (hc : c ≠ '\\')
    (hm : matchTok kws (c :: cs) = some md) (hs : sub md = .error e) :
    scanSub kws sub (fuel + 1) (c :: cs) = .error e := by
  simp [scanSub, hc, hm, hs]

/-- A style token matching at the start of the text with a raising subber
makes the whole scan raise. -/
theorem scanSub_style_start_err (sub : TokMatch → Except Err String)
    (fuel : Nat) (after : List Char) (md : TokMatch) (e : Err)
    (hm : matchAfterKw "style" after = some md) (hs : sub md = .error e) :
    scanSub ["style"] sub (fuel + 1) ("\x7bstyle:".toList ++ after) =
      .error e := by
  have hform : "\x7bstyle:".toList ++ after =
      '{' :: ('s' :: 't' :: 'y' :: 'l' :: 'e' :: ':' :: after) := rfl
  have hm2 : matchTok ["style"]
      ('{' :: ('s' :: 't' :: 'y' :: 'l' :: 'e' :: ':' :: after)) = some md := by
    rw [← hform, matchTok_style, hm]
  rw [hform]
  exact scanSub_step_err _ _ _ _ _ _ _ (by decide) hm2 hs

/-- `_style_subber` raises `AttributeError` for the hex-substituting formats
on a truthy style whose foreground color is absent or not truecolor. -/
theorem styleSub_attr_err (tbl : StyleTbl) (md : TokMatch) (s : RichStyle)
    (hget : getStyle tbl md.name = some s) (htru : styleTruthy s = true)
    (hfg : s.color = none ∨ ∃ c, s.color = some c ∧ c.triplet = none)
    (hfmt : md.fmt = none ∨ md.fmt = some "" ∨ md.fmt = some "hex" ∨
            md.fmt = some "hexnohash") :
    styleSub (some tbl) md = .error .attr := by
  have hhex : styleSub.hexOfStyle s = .error .attr := by
    rcases hfg with h | ⟨c, hcol, ht⟩
    · simp [styleSub.hexOfStyle, h]
    · simp [styleSub.hexOfStyle, hcol, ht]
  rcases hfmt with h | h | h | h <;>
    simp [styleSub, hget, htru, h, hhex, Except.map]

/-! ## Lemmas about the Jinja template model -/

/-- A Jinja/Python identifier character (the names for which the template
model agrees with Jinja's expression grammar). -/
def identChar (c : Char) : Bool := c.isAlphanum || c == '_'

theorem identChar_ne_rbrace {c : Char} (h : identChar c = true) : c ≠ '}' := by
  intro he
  rw [he] at h
  exact absurd h (by decide)

theorem identChar_not_space {c : Char} (h : identChar c = true) :
    isSpaceChar c = false := by
  rcases Bool.eq_false_or_eq_true (isSpaceChar c) with ht | hf
  · have ho : c = ' ' ∨ c = '\t' := of_decide_eq_true ht
    rcases ho with rfl | rfl <;> exact absurd h (by decide)
  · exact hf

/-- The first `}}` after a brace-free body closes the template expression. -/
theorem findCloseTmpl_append {l r : List Char} (h : ∀ ch ∈ l, ch ≠ '}') :
    findCloseTmpl (l ++ '}' :: '}' :: r) = some (l, r) := by
  induction l with
  | nil => simp [findCloseTmpl]
  | cons a l ih =>
      have ha : a ≠ '}' := h a (by simp)
      have ih' := ih (fun ch hm => h ch (by simp [hm]))
      simp [findCloseTmpl, ha, ih']

theorem trimChars_id {l : List Char} (h : ∀ c ∈ l, isSpaceChar c = false) :
    trimChars l = l := by
  unfold trimChars
  rw [dropWhile_all_false h,
      dropWhile_all_false (fun c hm => h c (List.mem_reverse.mp hm)),
      List.reverse_reverse]

/-- Rendering `{{colors.<name>}}` against the partially-built table
substitutes the looked-up value, for every identifier name. -/
theorem renderTmpl_colors_ref (tbl : List (String × Toml)) (c v : String)
    (h2 : ∀ ch ∈ c.toList, identChar ch = true)
    (hlk : List.lookup c tbl = some (.str v)) :
    renderTmpl tbl ("\x7b\x7bcolors." ++ c ++ "\x7d\x7d") = .ok v := by
  have hnb : ∀ ch ∈ ("colors.".toList ++ c.toList), ch ≠ '}' := by
    intro ch hm
    rcases List.mem_append.mp hm with hm | hm
    · have : ch ∈ ['c', 'o', 'l', 'o', 'r', 's', '.'] := hm
      simp at this
      rcases this with rfl | rfl | rfl | rfl | rfl | rfl | rfl <;> decide
    · exact identChar_ne_rbrace (h2 ch hm)
  have hns : ∀ ch ∈ ("colors.".toList ++ c.toList), isSpaceChar ch = false := by
    intro ch hm
    rcases List.mem_append.mp hm with hm | hm
    · have : ch ∈ ['c', 'o', 'l', 'o', 'r', 's', '.'] := hm
      simp at this
      rcases this with rfl | rfl | rfl | rfl | rfl | rfl | rfl <;> decide
    · exact identChar_not_space (h2 ch hm)
  have htl : ("\x7b\x7bcolors." ++ c ++ "\x7d\x7d").toList =
      '{' :: '{' :: (("colors.".toList ++ c.toList) ++ '}' :: '}' :: []) := by
    rw [toList_append, toList_append]
    rfl
  have heval : evalTmplExpr tbl ("colors.".toList ++ c.toList) = v := by
    unfold evalTmplExpr
    simp only [trimChars_id hns]
    rw [dropPre_append]
    simp [asString_data, hlk, jinjaStr]
  unfold renderTmpl
  rw [htl]
  have hfind : findCloseTmpl
      ('c' :: 'o' :: 'l' :: 'o' :: 'r' :: 's' :: '.' :: (c.data ++ ['}', '}'])) =
      some ("colors.".toList ++ c.toList, []) := findCloseTmpl_append hnb
  simp [renderTmplGo, hfind, Except.map, asString_data]
  exact heval

/-! ## Claim theorems -/

/-- C1: Color-table resolution is order sensitive.  With `a = "b"` declared
before `b = "#112233"`, the bare name `b` is a forward reference, is not
special-cased, and `a` resolves to the literal text `"b"`; with the reverse
declaration order the bare-name alias fires and `a` resolves to
`"#112233"`. -/
theorem c1_color_order_sensitivity :
    processColors [("a", .str "b"), ("b", .str "#112233")] =
      .ok [("a", .str "b"), ("b", .str "#112233")] ∧
    processColors [("b", .str "#112233"), ("a", .str "b")] =
      .ok [("b", .str "#112233"), ("a", .str "#112233")] := by
  exact ⟨rfl, rfl⟩

/-- C2: A template reference to an unknown key (`{{colors.doesnotexist}}`)
or to a not-yet-defined key (`{{colors.b}}` before `b`) renders as the empty
string during color resolution, and resolution succeeds (returns `.ok`, no
error is propagated). -/
theorem c2_unknown_reference_degrades_silently :
    processColors [("a", .str "\x7b\x7bcolors.doesnotexist\x7d\x7d")] =
      .ok [("a", .str "")] ∧
    processColors [("a", .str "\x7b\x7bcolors.b\x7d\x7d"), ("b", .str "#112233")] =
      .ok [("a", .str ""), ("b", .str "#112233")] := by
  exact ⟨rfl, rfl⟩

/-- C5: `Interpolator.interpolate` is the variable pass followed by the
style pass: for every input, it equals `interpolate_styles` composed after
`interpolate_variables`, each of which is independently callable. -/
theorem c5_interpolate_is_composition (rf : Nat) (styles : Option StyleTbl)
    (vars : VarTbl) (text : String) :
    interpolate rf styles vars text =
      (interpolate_variables rf styles vars text).bind (interpolate_styles styles) :=
  rfl

/-- The C3 scenario: a scope with `enabled = false`, a present `enabled_if`
that would succeed, agent `environment_variables`, and `unset = "X"`. -/
def c3scope : ScopeS :=
  ⟨"gated",
   [("agent", .str "environment_variables"), ("enabled", .bool false),
    ("enabled_if", .str "/bin/true"), ("unset", .str "X")]⟩

/-- C3: When a scope has `enabled = false`, `run_agent` produces no output
at all (in particular no `unset X`) for every possible agent behavior `f`
registered under `environment_variables` and for every shell oracle — so the
agent is never invoked and `enabled_if` is never evaluated, the boolean
`enabled` being authoritative. -/
theorem c3_enabled_false_gates_agent (agents : AgentMap) (f : ScopeS → String)
    (shell : String → Nat)
    (h : List.lookup "environment_variables" agents = some f) :
    run_agent agents shell c3scope = .ok none := by
  have h1 : List.lookup "agent" c3scope.definition =
      some (.str "environment_variables") := rfl
  have h2 : scopeEnabled shell c3scope = .ok false := rfl
  simp only [run_agent, h1, h, h2]

/-- Witness for C3 at the spec-modelled registry and an always-succeeding
shell oracle. -/
theorem c3_enabled_false_gates_agent_witness :
    run_agent dyeAgents (fun _ => 0) c3scope = .ok none :=
  c3_enabled_false_gates_agent dyeAgents envVarsAgentRun (fun _ => 0) rfl

/-- C4: With no `enabled` key, `Pattern.is_enabled` (a) on a present,
non-empty `enabled_if` command interpolates the command text and reports
enabled exactly when the shell exit status is 0 (a nonzero status yields
`.ok false`, not an error); (b) with no `enabled_if` key reports enabled;
(c) with an empty `enabled_if` reports enabled. -/
theorem c4_is_enabled_semantics (rf : Nat) (styles : StyleTbl) (vars : VarTbl)
    (shell : String → Nat) (prog scope : String) (d : List (String × Toml))
    (cmd : String) (hen : List.lookup "enabled" d = none) :
    (List.lookup "enabled_if" d = some (.str cmd) → cmd ≠ "" →
      is_enabled rf styles vars shell prog scope d =
        (interpolate rf (some styles) vars cmd).map (fun rcmd => shell rcmd == 0)) ∧
    (List.lookup "enabled_if" d = none →
      is_enabled rf styles vars shell prog scope d = .ok true) ∧
    (List.lookup "enabled_if" d = some (.str "") →
      is_enabled rf styles vars shell prog scope d = .ok true) := by
  refine ⟨fun hif hne => ?_, fun hif => ?_, fun hif => ?_⟩
  · simp [is_enabled, hen, hif, pyFalsy, hne]
  · simp [is_enabled, hen, hif]
  · simp [is_enabled, hen, hif, pyFalsy]

/-- Witness for C4: a nonzero probe exit status yields `.ok false`
(disabled, not an error), after variable interpolation of the command. -/
theorem c4_is_enabled_semantics_witness :
    is_enabled 1 [] [("x", .str "1")] (fun _ => 7) "dye" "s"
      [("enabled_if", .str "probe \x7bvar:x\x7d")] = .ok false := by
  have h := (c4_is_enabled_semantics 1 [] [("x", .str "1")] (fun _ => 7) "dye" "s"
      [("enabled_if", .str "probe \x7bvar:x\x7d")] "probe \x7bvar:x\x7d" rfl).1
      rfl (by decide)
  rw [h]; rfl

/-- C6: for every variable name `x` expressible in the token grammar (no `:`
or `}`, the characters the `[^}:]*` name group excludes), defined in the
variable table or not, interpolating a lone backslash followed by the token
`{var:x}` yields exactly `{var:x}`: the backslash is removed, substitution is
suppressed, and the token text survives both passes intact — for every
recursion budget, style table and variable table. -/
theorem c6_backslash_escape (rf : Nat) (styles : Option StyleTbl)
    (vars : VarTbl) (x : String) (hc : ':' ∉ x.toList) (hb : '}' ∉ x.toList) :
    interpolate rf styles vars ("\\\x7bvar:" ++ x ++ "\x7d") =
      .ok ("\x7bvar:" ++ x ++ "\x7d") := by
  have hx := tokNameChar_of_not_mem hc hb
  have htl : ("\\\x7bvar:" ++ x ++ "\x7d").toList =
      '\\' :: ("\x7bvar:".toList ++ (x.toList ++ ['}'])) := by
    rw [toList_append, toList_append, List.append_assoc]
    rfl
  have hphrase : ("\x7b" ++ "var" ++ ":" ++ x ++ "\x7d") =
      "\x7bvar:" ++ x ++ "\x7d" := by
    cases x; rfl
  have has291 : ('{' :: 'v' :: 'a' :: 'r' :: ':' :: (x.data ++ ['}'])).asString =
      "\x7bvar:" ++ x ++ "\x7d" := by
    cases x; rfl
  have hv : interpolate_variables rf styles vars ("\\\x7bvar:" ++ x ++ "\x7d") =
      .ok ("\x7bvar:" ++ x ++ "\x7d") := by
    unfold interpolate_variables
    rw [htl]
    simp only [scanSub, if_pos rfl, matchTok_var,
               matchAfterKw_no_fmt "var" x [] hx]
    simp [Except.map, hphrase, asString_toList, has291]
  have htl2 : ("\x7bvar:" ++ x ++ "\x7d").toList =
      "\x7bvar:".toList ++ (x.toList ++ ['}']) := by
    rw [toList_append, toList_append, List.append_assoc]
    rfl
  have hni := no_style_in_var_token x hc
  rw [← htl2] at hni
  have hs : interpolate_styles styles ("\x7bvar:" ++ x ++ "\x7d") =
      .ok ("\x7bvar:" ++ x ++ "\x7d") := by
    unfold interpolate_styles
    rw [scanSub_style_id (styleSub styles) _ _ (Nat.le_succ _) hni]
    simp [Except.map, asString_toList, has291]
  unfold interpolate
  rw [hv]
  simpa [Except.bind] using hs

/-- Witness for C6 with a defined variable named `x`. -/
theorem c6_backslash_escape_witness :
    interpolate 1 (some []) [("x", .str "value")] "\\\x7bvar:x\x7d" =
      .ok "\x7bvar:x\x7d" :=
  c6_backslash_escape 1 (some []) [("x", .str "value")] "x"
    (by decide) (by decide)

/-- The C7 scenario: an otherwise-enabled scope naming the unregistered
agent `bogus`. -/
def c7scope : ScopeS :=
  ⟨"myprog", [("agent", .str "bogus"), ("unset", .str "SOMEVAR")]⟩

/-- C7 counterexample: for the scope named `myprog` with `agent = "bogus"`,
the program exits with code 1 and prints `dye: bogus: unknown agent` to
stderr — a diagnostic that contains the agent name but does NOT contain the
scope name `myprog`, contradicting the claim that it contains both. -/
theorem c7_unknown_agent_counterexample :
    dispatch_apply "dye" dyeAgents (fun _ => 0) c7scope =
      (1, ["dye: bogus: unknown agent"], none) ∧
    ¬ ("myprog".toList <:+: "dye: bogus: unknown agent".toList) := by
  exact ⟨rfl, by decide⟩

/-- C7 amended: an enabled scope naming an unregistered agent makes the
program exit with code 1 and print to stderr a diagnostic containing the
unrecognized agent name (`{prog}: {agent}: unknown agent`); the scope's name
is not part of the diagnostic. -/
theorem c7_unknown_agent_amended (agents : AgentMap) (shell : String → Nat)
    (h : List.lookup "bogus" agents = none) :
    dispatch_apply "dye" agents shell c7scope =
      (1, ["dye: bogus: unknown agent"], none) ∧
    ("bogus".toList <:+: "dye: bogus: unknown agent".toList) := by
  have h1 : List.lookup "agent" c7scope.definition = some (.str "bogus") := rfl
  refine ⟨?_, by decide⟩
  simp only [dispatch_apply, run_agent, h1, h]
  rfl

/-- Witness for the amended C7 at the spec-modelled registry. -/
theorem c7_unknown_agent_amended_witness :
    dispatch_apply "dye" dyeAgents (fun _ => 0) c7scope =
      (1, ["dye: bogus: unknown agent"], none) :=
  (c7_unknown_agent_amended dyeAgents (fun _ => 0) rfl).1

/-- C8: for a color name `c` already resolved to a string value when a later
key `x` is processed, the bare-name form `x = "c"` and the embedded-template
form `x = "{{colors.c}}"` resolve `x` to the same value, and processing the
rest of the table from either definition yields the same color table.  The
hypotheses name the identifier grammar (`identChar`, non-empty, no leading
digit) on which the Jinja capability model is exact, and require the
template text itself not to be a declared key (so the bare-name branch does
not fire on it). -/
theorem c8_bare_vs_template_alias (acc : List (String × Toml)) (x c v : String)
    (rest : List (String × Toml))
    (_hne : c.toList ≠ [])
    (hid : ∀ ch ∈ c.toList, identChar ch = true)
    (_hdig : ∀ ch, c.toList.head? = some ch → ch.isDigit = false)
    (hlk : List.lookup c acc = some (.str v))
    (hnk : List.lookup ("\x7b\x7bcolors." ++ c ++ "\x7d\x7d") acc = none) :
    resolveColorValue acc c = .ok (.str v) ∧
    resolveColorValue acc ("\x7b\x7bcolors." ++ c ++ "\x7d\x7d") = .ok (.str v) ∧
    processColorsAux acc ((x, .str c) :: rest) =
      processColorsAux acc
        ((x, .str ("\x7b\x7bcolors." ++ c ++ "\x7d\x7d")) :: rest) := by
  have ha : resolveColorValue acc c = .ok (.str v) := by
    simp [resolveColorValue, hlk]
  have hbt : resolveColorValue acc ("\x7b\x7bcolors." ++ c ++ "\x7d\x7d") =
      .ok (.str v) := by
    simp [resolveColorValue, hnk, renderTmpl_colors_ref acc c v hid hlk,
          Except.map]
  refine ⟨ha, hbt, ?_⟩
  simp [processColorsAux, ha, hbt]

/-- Witness for C8 on a one-entry table. -/
theorem c8_bare_vs_template_alias_witness :
    resolveColorValue [("base", .str "#112233")] "base" = .ok (.str "#112233") ∧
    resolveColorValue [("base", .str "#112233")] "\x7b\x7bcolors.base\x7d\x7d" =
      .ok (.str "#112233") ∧
    processColorsAux [("base", .str "#112233")] [("x", .str "base")] =
      processColorsAux [("base", .str "#112233")]
        [("x", .str "\x7b\x7bcolors.base\x7d\x7d")] :=
  c8_bare_vs_template_alias [("base", .str "#112233")] "x" "base" "#112233" []
    (by decide) (by decide) (fun ch h => by cases h; decide) rfl rfl

/-- C10: for every style token of the hex-substituting formats (absent,
empty, `hex`, `hexnohash`) whose name resolves — by table lookup or by
direct parse, which is what `_get_style` does — to a truthy style whose
foreground color is absent or not truecolor (so `color.triplet` is `None`),
`interpolate_styles` raises (`AttributeError`) rather than substituting or
passing the token through. -/
theorem c10_style_hex_not_total (tbl : StyleTbl) (n : String) (s : RichStyle)
    (hc : ':' ∉ n.toList) (hb : '}' ∉ n.toList)
    (hget : getStyle tbl n = some s) (htru : styleTruthy s = true)
    (hfg : s.color = none ∨ ∃ c, s.color = some c ∧ c.triplet = none) :
    interpolate_styles (some tbl) ("\x7bstyle:" ++ n ++ "\x7d") =
      .error .attr ∧
    interpolate_styles (some tbl) ("\x7bstyle:" ++ n ++ ":\x7d") =
      .error .attr ∧
    interpolate_styles (some tbl) ("\x7bstyle:" ++ n ++ ":hex\x7d") =
      .error .attr ∧
    interpolate_styles (some tbl) ("\x7bstyle:" ++ n ++ ":hexnohash\x7d") =
      .error .attr := by
  have hxn := tokNameChar_of_not_mem hc hb
  refine ⟨?_, ?_, ?_, ?_⟩
  · have htl : ("\x7bstyle:" ++ n ++ "\x7d").toList =
        "\x7bstyle:".toList ++ (n.toList ++ ['}']) := by
      rw [toList_append, toList_append, List.append_assoc]
      rfl
    unfold interpolate_styles
    rw [htl, scanSub_style_start_err _ _ _ _ _
          (matchAfterKw_no_fmt "style" n [] hxn)
          (styleSub_attr_err tbl _ s hget htru hfg (Or.inl rfl))]
    rfl
  · have htl : ("\x7bstyle:" ++ n ++ ":\x7d").toList =
        "\x7bstyle:".toList ++ (n.toList ++ ':' :: ("".toList ++ ['}'])) := by
      rw [toList_append, toList_append, List.append_assoc]
      rfl
    unfold interpolate_styles
    rw [htl, scanSub_style_start_err _ _ _ _ _
          (matchAfterKw_fmt "style" n "" hxn (by decide))
          (styleSub_attr_err tbl _ s hget htru hfg (Or.inr (Or.inl rfl)))]
    rfl
  · have htl : ("\x7bstyle:" ++ n ++ ":hex\x7d").toList =
        "\x7bstyle:".toList ++ (n.toList ++ ':' :: ("hex".toList ++ ['}'])) := by
      rw [toList_append, toList_append, List.append_assoc]
      rfl
    unfold interpolate_styles
    rw [htl, scanSub_style_start_err _ _ _ _ _
          (matchAfterKw_fmt "style" n "hex" hxn (by decide))
          (styleSub_attr_err tbl _ s hget htru hfg
            (Or.inr (Or.inr (Or.inl rfl))))]
    rfl
  · have htl : ("\x7bstyle:" ++ n ++ ":hexnohash\x7d").toList =
        "\x7bstyle:".toList ++
          (n.toList ++ ':' :: ("hexnohash".toList ++ ['}'])) := by
      rw [toList_append, toList_append, List.append_assoc]
      rfl
    unfold interpolate_styles
    rw [htl, scanSub_style_start_err _ _ _ _ _
          (matchAfterKw_fmt "style" n "hexnohash" hxn (by decide))
          (styleSub_attr_err tbl _ s hget htru hfg
            (Or.inr (Or.inr (Or.inr rfl))))]
    rfl

/-- Witness for C10: the style `alert` is a truthy style with a standard
(non-truecolor) foreground, and the hex substitution raises. -/
theorem c10_style_hex_not_total_witness :
    interpolate_styles
      (some [("alert", { color := some { ctype := .standard, number := some 1 } })])
      "\x7bstyle:alert\x7d" = .error .attr :=
  (c10_style_hex_not_total
    [("alert", { color := some { ctype := .standard, number := some 1 } })]
    "alert" { color := some { ctype := .standard, number := some 1 } }
    (by decide) (by decide) rfl rfl
    (Or.inr ⟨{ ctype := .standard, number := some 1 }, rfl, rfl⟩)).1

/-- C9: the `ls_colors` generator with only `style.directory = "bright_blue"`
and `clear_builtin = true` emits a single export line carrying an entry for
every one of the 19 builtin two-letter codes, with `di=94` and every other
code rendered from the literal `default` style as `=0`. -/
theorem c9_ls_colors_clear_builtin :
    lsColorsGenerate 0 "shell-themer" "myscope"
      [("agent", .str "ls_colors"),
       ("style", .table [("directory", .str "bright_blue")]),
       ("clear_builtin", .bool true)] [] [] =
      .ok ("export LS_COLORS=\"di=94:no=0:fi=0:ln=0:mh=0:pi=0:so=0:do=0:" ++
           "bd=0:cd=0:or=0:mi=0:su=0:sg=0:st=0:ow=0:tw=0:ex=0:ca=0\"") ∧
    (LS_COLORS_BASE_MAP.map Prod.snd).all
      (fun code =>
        decide ((code ++ "=").toList <:+:
          ("export LS_COLORS=\"di=94:no=0:fi=0:ln=0:mh=0:pi=0:so=0:do=0:" ++
           "bd=0:cd=0:or=0:mi=0:su=0:sg=0:st=0:ow=0:tw=0:ex=0:ca=0\"").toList)) =
      true := by
  exact ⟨rfl, by decide⟩

end Dye
